import Mathlib

/-
Verification of the real-time audio feature extraction and beat/tempo
detection pipeline of WebReactiveVJ (src/web/app.js).

The JavaScript is shallowly embedded over ℚ.  JavaScript numbers are
modelled as rationals; the two transcendental library functions the
pipeline uses, `Math.pow` and `Math.sqrt`, are threaded through every
definition as an explicit interpretation record `JsMath`, so that
theorems can assume exactly the properties of `Math.pow` they need
(for example that it maps [0,1] into [0,1] for the fixed positive
exponents the code uses) and so that concrete executions can pick a
computable interpretation.  `Infinity` (the sentinel for an undefined
flux threshold) is modelled as `Option.none`.  `performance.now()` is
sampled once per tick in the source; the sampled value is passed in as
the `now` field of the per-tick frame.
-/

/- The Batteries rational arithmetic operations are sealed for the
elaborator; unseal them so that concrete runs of the model reduce. -/
unseal Rat.add Rat.sub Rat.mul Rat.inv Rat.ofScientific

set_option maxRecDepth 40000

namespace WebVJ

/-- Interpretation of the JavaScript math library functions used by the
pipeline (`Math.pow` and `Math.sqrt`). -/
structure JsMath where
  pow : ℚ → ℚ → ℚ
  sqrt : ℚ → ℚ

/-- A computable interpretation of `JsMath`, used to run the model on
concrete inputs.  It agrees with the real `Math.pow`/`Math.sqrt`
whenever the argument is 0 or 1, which is the only way the concrete
executions below exercise them. -/
def ratMath : JsMath where
  pow := fun x _ => x
  sqrt := fun x => x

/-! CONFIG constants from src/web/app.js (lines 15-48). -/

def barCount : ℕ := 96
def levelScale : ℚ := 320
def levelExponent : ℚ := 0.56
def bandGain : ℚ := 20
def bandExponent : ℚ := 0.7
def fluxHistorySize : ℕ := 128
def fluxWindow : ℕ := 24
def fluxMinWindow : ℕ := 12
def fluxSensitivity : ℚ := 1.65
def fluxExponent : ℚ := 1.18
def fluxDeltaFloor : ℚ := 0.006
def fluxPulseGain : ℚ := 2.6
def beatDeltaGain : ℚ := 5.4
def beatMinIntervalMs : ℚ := 200
def beatMaxIntervalMs : ℚ := 1400
def beatLevelFloor : ℚ := 0.16
def beatEnergyFloor : ℚ := 0.18
def beatSilenceResetMs : ℚ := 2600
def bpmSmoothing : ℚ := 0.28
def bpmWindow : ℕ := 12
def paletteMinHoldMs : ℚ := 2000
def paletteBeatsPerCycle : ℕ := 8
def paletteQuietIntensity : ℚ := 0.12
def paletteQuietResetMs : ℚ := 5200
def paletteBeatPulseGate : ℚ := 0.6

/-- Number of entries of `COLOR_THEMES` (app.js lines 50-79). -/
def themeCount : ℕ := 4

/-- `lerp` from app.js line 892. -/
def lerp (a b t : ℚ) : ℚ := a + (b - a) * t

/-- JavaScript `Math.max` on two rationals. -/
def jmax (a b : ℚ) : ℚ := if a ≤ b then b else a

/-- JavaScript `Math.min` on two rationals. -/
def jmin (a b : ℚ) : ℚ := if a ≤ b then a else b

theorem jmax_eq (a b : ℚ) : jmax a b = max a b := by
  rw [jmax, max_def]

theorem jmin_eq (a b : ℚ) : jmin a b = min a b := by
  rw [jmin, min_def]

/-- `clamp` from app.js line 896: `Math.max(min, Math.min(max, value))`. -/
def clamp (value lo hi : ℚ) : ℚ := jmax lo (jmin hi value)

theorem clamp_eq (value lo hi : ℚ) : clamp value lo hi = max lo (min hi value) := by
  rw [clamp, jmax_eq, jmin_eq]

/-- JavaScript `Math.round` on the (positive) rationals the pipeline
rounds: round half toward positive infinity. -/
def jround (x : ℚ) : ℚ := ((⌊x + 1/2⌋ : ℤ) : ℚ)

/-- Push onto a bounded FIFO: `push` followed by `shift` when the
capacity is exceeded (the `push`/`length > cap`/`shift` pattern used
for `fluxHistory` and `beatIntervals`). -/
def pushCap (l : List ℚ) (x : ℚ) (cap : ℕ) : List ℚ :=
  let l' := l ++ [x]
  if cap < l'.length then l'.tail else l'

/-- The `bandEnergy` triple. -/
structure BandEnergy where
  low : ℚ
  mid : ℚ
  high : ℚ
deriving DecidableEq

/-- One per-tick input frame: the time-domain window (`timeData`,
already scaled to floats as `getFloatTimeDomainData` returns), the
frequency byte magnitudes (`freqData`, raw 0..255 values), and the
tick's `performance.now()` sample. -/
structure Frame where
  timeData : List ℚ
  freqData : List ℚ
  now : ℚ
deriving DecidableEq

/-- The mutable fields of `AudioAnalyser` (constructor, app.js 81-102). -/
structure AState where
  rms : ℚ
  rmsAverage : ℚ
  level : ℚ
  levelAverage : ℚ
  beatPulse : ℚ
  brightness : ℚ
  lastBeatTime : ℚ
  beatIntervals : List ℚ
  bpm : ℚ
  bandEnergy : BandEnergy
  prevSpectrum : Option (List ℚ)
  fluxHistory : List ℚ
  prevFlux : ℚ
  lastAudioActive : ℚ
  beatDetected : Bool
deriving DecidableEq

/-- The per-tick result object returned by `AudioAnalyser.update`
(app.js 184-194). -/
structure Snap where
  rms : ℚ
  rmsAverage : ℚ
  level : ℚ
  beatPulse : ℚ
  brightness : ℚ
  bpm : ℚ
  beatDetected : Bool
  bandEnergy : BandEnergy
  frequencies : List ℚ
deriving DecidableEq

/-- Initial analyser state (the constructor, app.js 82-102). -/
def initialState : AState where
  rms := 0
  rmsAverage := 1/1000
  level := 0
  levelAverage := 0
  beatPulse := 0
  brightness := 0
  lastBeatTime := 0
  beatIntervals := []
  bpm := 0
  bandEnergy := ⟨0, 0, 0⟩
  prevSpectrum := none
  fluxHistory := []
  prevFlux := 0
  lastAudioActive := 0
  beatDetected := false

namespace AudioAnalyser

/-- `_updateBands` (app.js 197-230): partition the byte bins at
`floor(len*0.12)` and `floor(len*0.45)`, average each range of
`value/255`, then compress with `pow(clamp(avg*gain,0,1), exponent)`. -/
def updateBands (m : JsMath) (freqData : List ℚ) : BandEnergy :=
  let len := freqData.length
  let lowEnd := len * 12 / 100
  let midEnd := len * 45 / 100
  let lowSum := ((freqData.take lowEnd).map (fun v => v / 255)).sum
  let midSum := (((freqData.take midEnd).drop lowEnd).map (fun v => v / 255)).sum
  let highSum := ((freqData.drop midEnd).map (fun v => v / 255)).sum
  let lowCount : ℚ := (max lowEnd 1 : ℕ)
  let midCount : ℚ := (max (midEnd - lowEnd) 1 : ℕ)
  let highCount : ℚ := (max (len - midEnd) 1 : ℕ)
  let convert := fun (s c : ℚ) => m.pow (clamp (s / c * bandGain) 0 1) bandExponent
  { low := convert lowSum lowCount
    mid := convert midSum midCount
    high := convert highSum highCount }

/-- `_updateBrightness` (app.js 232-236). -/
def updateBrightness (band : BandEnergy) : ℚ :=
  let total := band.low + band.mid + band.high + 1/1000000
  clamp ((band.mid * 0.35 + band.high * 0.65) / total) 0 1

/-- `_calculateFlux` (app.js 238-257): on the first tick initialise
`prevSpectrum` and return flux 0; otherwise accumulate the half-wave
rectified difference of compressed magnitudes and overwrite
`prevSpectrum`.  Returns `(flux, new prevSpectrum)`. -/
def calculateFlux (m : JsMath) (prevSpectrum : Option (List ℚ)) (freqData : List ℚ) :
    ℚ × List ℚ :=
  match prevSpectrum with
  | none => (0, freqData.map (fun v => m.pow (v / 255) fluxExponent))
  | some prev =>
    let mags := freqData.map (fun v => m.pow (v / 255) fluxExponent)
    let flux := (mags.enum.map (fun p => jmax 0 (p.2 - prev.getD p.1 0))).sum /
      (freqData.length : ℚ)
    (flux, mags)

/-- Result of `_updateFluxHistory` (app.js 259-285): the adaptive
threshold (`none` models the `Infinity` sentinel), `delta`
(`flux - threshold`, 0 when the threshold is undefined), and the new
history buffer. -/
structure FluxResult where
  threshold : Option ℚ
  delta : ℚ
  history : List ℚ
deriving DecidableEq

/-- `_updateFluxHistory` (app.js 259-285).  Note the threshold is
computed from the history as it stood BEFORE the new flux value is
pushed. -/
def updateFluxHistory (history : List ℚ) (flux : ℚ) : FluxResult :=
  let windowSize := min history.length fluxWindow
  let threshold : Option ℚ :=
    if fluxMinWindow ≤ windowSize then
      let w := history.drop (history.length - windowSize)
      let mean := w.sum / (windowSize : ℚ)
      let deviation := (w.map (fun x => |x - mean|)).sum / (windowSize : ℚ)
      some (mean + deviation * fluxSensitivity)
    else none
  { threshold := threshold
    delta := match threshold with
      | none => 0
      | some t => flux - t
    history := pushCap history flux fluxHistorySize }

/-- The weighted band-energy score of `_detectBeat` (app.js 290). -/
def energyScore (b : BandEnergy) : ℚ :=
  b.low * 0.5 + b.mid * 0.35 + b.high * 0.25

/-- Conjunction under which `_detectBeat` confirms a beat
(app.js 288-297): flux active, rising, level or energy floor passed,
and the refractory check `lastBeatTime === 0 || interval > 200`. -/
@[reducible] def confirmedCond (s : AState) (levelSample flux : ℚ) (threshold : Option ℚ)
    (delta frameNow : ℚ) : Prop :=
  (threshold ≠ none ∧ delta > fluxDeltaFloor) ∧ flux > s.prevFlux ∧
    (levelSample > beatLevelFloor ∨ energyScore s.bandEnergy > beatEnergyFloor) ∧
    (s.lastBeatTime = 0 ∨ frameNow - s.lastBeatTime > beatMinIntervalMs)

/-- Condition of the silence/idle reset branch of `_detectBeat`
(app.js 312-320). -/
@[reducible] def resetCond (s : AState) (frameNow : ℚ) : Prop :=
  (s.lastBeatTime > 0 ∧ frameNow - s.lastBeatTime > beatSilenceResetMs) ∨
    frameNow - s.lastAudioActive > beatSilenceResetMs

/-- `_detectBeat` (app.js 287-324), acting on the state as already
updated by the earlier phases of the tick (so `s.bandEnergy` is this
tick's band energy, as in the source where `this.bandEnergy` is passed
in).  Returns the updated state and the `detected` flag. -/
def detectBeat (s : AState) (levelSample flux : ℚ) (threshold : Option ℚ)
    (delta frameNow : ℚ) : AState × Bool :=
  let interval := frameNow - s.lastBeatTime
  if confirmedCond s levelSample flux threshold delta frameNow then
    let s1 :=
      if s.lastBeatTime > 0 ∧ interval < beatMaxIntervalMs then
        let ints := pushCap s.beatIntervals interval bpmWindow
        let avg := ints.sum / (ints.length : ℚ)
        let targetBpm := clamp (60000 / jmax avg 1) 50 200
        { s with beatIntervals := ints
                 bpm := if s.bpm = 0 then jround targetBpm
                        else jround (lerp s.bpm targetBpm bpmSmoothing) }
      else s
    ({ s1 with lastBeatTime := frameNow, prevFlux := flux }, true)
  else if resetCond s frameNow then
    ({ s with beatIntervals := [], lastBeatTime := 0, bpm := 0, prevFlux := flux }, false)
  else
    ({ s with prevFlux := flux }, false)

/-- Values computed during a tick and consumed by `_detectBeat`. -/
structure TickVals where
  normalized : ℚ
  flux : ℚ
  threshold : Option ℚ
  delta : ℚ
deriving DecidableEq

/-- The phases of `AudioAnalyser.update` (app.js 125-162) that run
before `_detectBeat`: RMS and level EMAs, band energy, brightness,
activity timestamp, flux, flux history/threshold, and the pulse
envelope lerp. -/
def midTick (m : JsMath) (s : AState) (f : Frame) : AState × TickVals :=
  let sumSquares := (f.timeData.map (fun x => x * x)).sum
  let nextRms := m.sqrt (sumSquares / (f.timeData.length : ℚ))
  let rms' := lerp s.rms nextRms 0.22
  let rmsAverage' := lerp s.rmsAverage nextRms 0.05
  let band := updateBands m f.freqData
  let brightness' := updateBrightness band
  let normalized := clamp (m.pow (nextRms * levelScale) levelExponent) 0 1
  let levelAverage' := lerp s.levelAverage normalized 0.06
  let level' := lerp s.level normalized 0.4
  let lastAudioActive' := if normalized > 0.035 then f.now else s.lastAudioActive
  let fl := calculateFlux m s.prevSpectrum f.freqData
  let fr := updateFluxHistory s.fluxHistory fl.1
  let beatDelta := jmax 0 (normalized - levelAverage' * 1.01)
  let energyContribution := normalized *
    (band.low * 0.24 + band.mid * 0.18 + band.high * 0.12)
  let targetBeatPulse := clamp
    (beatDelta * beatDeltaGain + jmax 0 fr.delta * fluxPulseGain + energyContribution) 0 1
  let beatPulse' := lerp s.beatPulse targetBeatPulse 0.36
  ({ s with rms := rms', rmsAverage := rmsAverage', bandEnergy := band,
            brightness := brightness', levelAverage := levelAverage', level := level',
            lastAudioActive := lastAudioActive', prevSpectrum := some fl.2,
            fluxHistory := fr.history, beatPulse := beatPulse' },
   { normalized := normalized, flux := fl.1, threshold := fr.threshold, delta := fr.delta })

/-- The display spectrum built at app.js 177-182. -/
def computeFrequencies (m : JsMath) (freqData : List ℚ) : List ℚ :=
  let step := max 1 (freqData.length / barCount)
  (List.range barCount).map (fun i => m.pow (freqData.getD (i * step) 0 / 255) 0.62)

/-- One full tick of `AudioAnalyser.update` (app.js 117-195) on an
actual frame: the pre-detect phases, `_detectBeat`, the additive pulse
boost on a confirmed beat, and the returned snapshot. -/
def update (m : JsMath) (s : AState) (f : Frame) : AState × Snap :=
  let mv := midTick m s f
  let db := detectBeat mv.1 mv.2.normalized mv.2.flux mv.2.threshold mv.2.delta f.now
  let beatPulse' := if db.2 then jmin 1 (db.1.beatPulse + 0.34) else db.1.beatPulse
  let s' := { db.1 with beatPulse := beatPulse', beatDetected := db.2 }
  (s', { rms := s'.rms, rmsAverage := s'.rmsAverage, level := s'.level,
         beatPulse := s'.beatPulse, brightness := s'.brightness, bpm := s'.bpm,
         beatDetected := db.2, bandEnergy := s'.bandEnergy,
         frequencies := computeFrequencies m f.freqData })

/-- `_emptyState` (app.js 326-338). -/
def emptyState : Snap where
  rms := 0
  rmsAverage := 0
  level := 0
  beatPulse := 0
  brightness := 0
  bpm := 0
  beatDetected := false
  bandEnergy := ⟨0, 0, 0⟩
  frequencies := List.replicate barCount 0

/-- Entry point of `AudioAnalyser.update` including the
`if (!this.analyser) return this._emptyState()` guard (app.js 117-120):
`none` models an uninitialized capture. -/
def updateOpt (m : JsMath) (s : AState) (inp : Option Frame) : AState × Snap :=
  match inp with
  | none => (s, emptyState)
  | some f => update m s f

/-- State after feeding a sequence of frames. -/
def runState (m : JsMath) : AState → List Frame → AState
  | s, [] => s
  | s, f :: fs => runState m (update m s f).1 fs

/-- Snapshot sequence produced by feeding a sequence of frames. -/
def runOutputs (m : JsMath) : AState → List Frame → List Snap
  | _, [] => []
  | s, f :: fs => (update m s f).2 :: runOutputs m (update m s f).1 fs

end AudioAnalyser

/-- The mutable fields of `PaletteController` (app.js 593-599). -/
structure PaletteState where
  index : ℕ
  lastSwitch : ℚ
  beatCount : ℕ
  lastBeatAt : ℚ
deriving DecidableEq

/-- The per-tick inputs `PaletteController.update` destructures
(app.js 601). -/
structure PaletteInput where
  audioIntensity : ℚ
  beatPulse : ℚ
  beatDetected : Bool
  bpm : ℚ
deriving DecidableEq

namespace PaletteController

/-- The beat bookkeeping at the top of `PaletteController.update`
(app.js 604-607). -/
def beatPhase (s : PaletteState) (i : PaletteInput) (now : ℚ) : PaletteState :=
  if i.beatDetected then { s with lastBeatAt := now, beatCount := s.beatCount + 1 }
  else s

/-- `Math.max(CONFIG.paletteMinHoldMs, targetHold)` with
`targetHold = beatDuration > 0 ? beatDuration*paletteBeatsPerCycle
: paletteMinHoldMs` (app.js 609-612). -/
def holdTime (bpm : ℚ) : ℚ :=
  let beatDuration := if bpm > 0 then 60000 / bpm else 0
  let targetHold := if beatDuration > 0 then beatDuration * (paletteBeatsPerCycle : ℚ)
                    else paletteMinHoldMs
  jmax paletteMinHoldMs targetHold

/-- `holdSatisfied` (app.js 612), computed from the pre-tick
`lastSwitch`. -/
@[reducible] def holdSatisfied (s : PaletteState) (i : PaletteInput) (now : ℚ) : Prop :=
  now - s.lastSwitch ≥ holdTime i.bpm

/-- `strongPulse` (app.js 613). -/
@[reducible] def strongPulse (i : PaletteInput) : Prop :=
  i.beatPulse > paletteBeatPulseGate ∨ i.beatDetected = true

/-- `PaletteController.update` (app.js 601-630): beat bookkeeping, the
advance branch, then the quiet-reset branch (the latter reuses the
`holdSatisfied` value computed before any advance). -/
def update (s : PaletteState) (i : PaletteInput) (now : ℚ) : PaletteState :=
  let s0 := beatPhase s i now
  let s1 :=
    if holdSatisfied s i now ∧ strongPulse i ∧ s0.beatCount ≥ paletteBeatsPerCycle then
      { s0 with index := (s0.index + 1) % themeCount, lastSwitch := now, beatCount := 0 }
    else s0
  if i.audioIntensity < paletteQuietIntensity ∧ holdSatisfied s i now ∧
      now - s0.lastBeatAt > paletteQuietResetMs then
    { s1 with index := 0, lastSwitch := now, beatCount := 0 }
  else s1

end PaletteController

/-! Concrete frames used to run the model on explicit inputs.  They use
only bin bytes 0 and 255 and zero time samples, so every `Math.pow` and
`Math.sqrt` call they trigger has argument 0 or 1, where the `ratMath`
interpretation agrees exactly with the JavaScript library functions. -/

/-- A quiet frame: one zero time sample, one zero frequency bin. -/
def qf (t : ℚ) : Frame := ⟨[0], [0], t⟩

/-- A loud-bin frame: one zero time sample, one saturated frequency
bin. -/
def bf (t : ℚ) : Frame := ⟨[0], [255], t⟩

/-- Twelve quiet warm-up ticks (flux history must hold at least
`fluxMinWindow = 12` samples before the threshold is defined). -/
def warmup : List Frame := (List.range 12).map (fun i => qf (10 * i))

/-! ### Basic arithmetic lemmas about the numeric helpers -/

theorem clamp_le_hi (v lo hi : ℚ) (h : lo ≤ hi) : clamp v lo hi ≤ hi := by
  rw [clamp_eq]
  exact max_le h (min_le_left _ _)

theorem lo_le_clamp (v lo hi : ℚ) : lo ≤ clamp v lo hi := by
  rw [clamp_eq]
  exact le_max_left _ _

theorem lerp_mem {lo hi a b t : ℚ} (ha : lo ≤ a) (ha' : a ≤ hi) (hb : lo ≤ b)
    (hb' : b ≤ hi) (ht : 0 ≤ t) (ht' : t ≤ 1) : lo ≤ lerp a b t ∧ lerp a b t ≤ hi := by
  unfold lerp
  constructor
  · nlinarith [mul_nonneg (sub_nonneg.2 hb) ht, mul_nonneg (sub_nonneg.2 ha) (sub_nonneg.2 ht')]
  · nlinarith [mul_nonneg (sub_nonneg.2 hb') ht, mul_nonneg (sub_nonneg.2 ha') (sub_nonneg.2 ht')]

theorem jround_mem {x : ℚ} (h1 : 50 ≤ x) (h2 : x ≤ 200) :
    50 ≤ jround x ∧ jround x ≤ 200 := by
  unfold jround
  constructor
  · have : (50 : ℤ) ≤ ⌊x + 1/2⌋ := by
      rw [Int.le_floor]; push_cast; linarith
    exact_mod_cast this
  · have : ⌊x + 1/2⌋ < (201 : ℤ) := by
      rw [Int.floor_lt]; push_cast; linarith
    have : ⌊x + 1/2⌋ ≤ (200 : ℤ) := by omega
    exact_mod_cast this

theorem jround_pos {x : ℚ} (h1 : 50 ≤ x) : jround x ≠ 0 := by
  unfold jround
  have : (50 : ℤ) ≤ ⌊x + 1/2⌋ := by
    rw [Int.le_floor]; push_cast; linarith
  intro hc
  have : ((⌊x + 1/2⌋ : ℤ) : ℚ) = 0 := hc
  have hz : ⌊x + 1/2⌋ = 0 := by exact_mod_cast this
  omega

theorem pushCap_length_eq (l : List ℚ) (x : ℚ) (cap : ℕ) (h : l.length ≤ cap) :
    (pushCap l x cap).length = min (l.length + 1) cap := by
  unfold pushCap
  by_cases hc : cap < (l ++ [x]).length
  · rw [if_pos hc]
    rcases l with - | ⟨y, ys⟩
    · simp at hc ⊢; omega
    · simp only [List.cons_append, List.tail_cons, List.length_append, List.length_cons,
        List.length_nil] at *
      omega
  · rw [if_neg hc]
    simp only [List.length_append, List.length_cons, List.length_nil] at *
    omega

theorem pushCap_length_le (l : List ℚ) (x : ℚ) (cap : ℕ) (h : l.length ≤ cap) :
    (pushCap l x cap).length ≤ cap := by
  rw [pushCap_length_eq l x cap h]; omega

/-! ### Structural lemmas: which tick phase touches which field -/

namespace AudioAnalyser

theorem midTick_lastBeatTime (m : JsMath) (s : AState) (f : Frame) :
    (midTick m s f).1.lastBeatTime = s.lastBeatTime := rfl

theorem midTick_beatIntervals (m : JsMath) (s : AState) (f : Frame) :
    (midTick m s f).1.beatIntervals = s.beatIntervals := rfl

theorem midTick_bpm (m : JsMath) (s : AState) (f : Frame) :
    (midTick m s f).1.bpm = s.bpm := rfl

theorem midTick_prevFlux (m : JsMath) (s : AState) (f : Frame) :
    (midTick m s f).1.prevFlux = s.prevFlux := rfl

theorem midTick_fluxHistory (m : JsMath) (s : AState) (f : Frame) :
    (midTick m s f).1.fluxHistory =
      (updateFluxHistory s.fluxHistory (calculateFlux m s.prevSpectrum f.freqData).1).history :=
  rfl

theorem midTick_threshold (m : JsMath) (s : AState) (f : Frame) :
    (midTick m s f).2.threshold =
      (updateFluxHistory s.fluxHistory (calculateFlux m s.prevSpectrum f.freqData).1).threshold :=
  rfl

theorem detectBeat_rms (s : AState) (n fl : ℚ) (th : Option ℚ) (d now : ℚ) :
    (detectBeat s n fl th d now).1.rms = s.rms := by
  simp only [detectBeat]
  repeat' split
  all_goals rfl

theorem detectBeat_rmsAverage (s : AState) (n fl : ℚ) (th : Option ℚ) (d now : ℚ) :
    (detectBeat s n fl th d now).1.rmsAverage = s.rmsAverage := by
  simp only [detectBeat]
  repeat' split
  all_goals rfl

theorem detectBeat_level (s : AState) (n fl : ℚ) (th : Option ℚ) (d now : ℚ) :
    (detectBeat s n fl th d now).1.level = s.level := by
  simp only [detectBeat]
  repeat' split
  all_goals rfl

theorem detectBeat_levelAverage (s : AState) (n fl : ℚ) (th : Option ℚ) (d now : ℚ) :
    (detectBeat s n fl th d now).1.levelAverage = s.levelAverage := by
  simp only [detectBeat]
  repeat' split
  all_goals rfl

theorem detectBeat_beatPulse (s : AState) (n fl : ℚ) (th : Option ℚ) (d now : ℚ) :
    (detectBeat s n fl th d now).1.beatPulse = s.beatPulse := by
  simp only [detectBeat]
  repeat' split
  all_goals rfl

theorem detectBeat_brightness (s : AState) (n fl : ℚ) (th : Option ℚ) (d now : ℚ) :
    (detectBeat s n fl th d now).1.brightness = s.brightness := by
  simp only [detectBeat]
  repeat' split
  all_goals rfl

theorem detectBeat_bandEnergy (s : AState) (n fl : ℚ) (th : Option ℚ) (d now : ℚ) :
    (detectBeat s n fl th d now).1.bandEnergy = s.bandEnergy := by
  simp only [detectBeat]
  repeat' split
  all_goals rfl

theorem detectBeat_lastAudioActive (s : AState) (n fl : ℚ) (th : Option ℚ) (d now : ℚ) :
    (detectBeat s n fl th d now).1.lastAudioActive = s.lastAudioActive := by
  simp only [detectBeat]
  repeat' split
  all_goals rfl

theorem detectBeat_prevSpectrum (s : AState) (n fl : ℚ) (th : Option ℚ) (d now : ℚ) :
    (detectBeat s n fl th d now).1.prevSpectrum = s.prevSpectrum := by
  simp only [detectBeat]
  repeat' split
  all_goals rfl

theorem detectBeat_fluxHistory (s : AState) (n fl : ℚ) (th : Option ℚ) (d now : ℚ) :
    (detectBeat s n fl th d now).1.fluxHistory = s.fluxHistory := by
  simp only [detectBeat]
  repeat' split
  all_goals rfl

theorem detectBeat_prevFlux (s : AState) (n fl : ℚ) (th : Option ℚ) (d now : ℚ) :
    (detectBeat s n fl th d now).1.prevFlux = fl := by
  simp only [detectBeat]
  repeat' split
  all_goals rfl

/-- `detectBeat` reports `true` exactly when `confirmedCond` holds. -/
theorem detectBeat_snd (s : AState) (n fl : ℚ) (th : Option ℚ) (d now : ℚ) :
    (detectBeat s n fl th d now).2 = true ↔ confirmedCond s n fl th d now := by
  simp only [detectBeat]
  split
  · next hc => exact iff_of_true rfl hc
  · next hnc => split <;> exact iff_of_false Bool.false_ne_true hnc

/-- On a confirmed beat `lastBeatTime` is set to the tick time. -/
theorem detectBeat_lastBeatTime_of_confirmed (s : AState) (n fl : ℚ) (th : Option ℚ)
    (d now : ℚ) (h : confirmedCond s n fl th d now) :
    (detectBeat s n fl th d now).1.lastBeatTime = now := by
  unfold detectBeat
  rw [if_pos h]

/-- Projections of the pair returned by `update`. -/
theorem update_detect (m : JsMath) (s : AState) (f : Frame) :
    (update m s f).2.beatDetected =
      (detectBeat (midTick m s f).1 (midTick m s f).2.normalized (midTick m s f).2.flux
        (midTick m s f).2.threshold (midTick m s f).2.delta f.now).2 := rfl

theorem update_fst (m : JsMath) (s : AState) (f : Frame) :
    (update m s f).1 =
      (let db := detectBeat (midTick m s f).1 (midTick m s f).2.normalized
        (midTick m s f).2.flux (midTick m s f).2.threshold (midTick m s f).2.delta f.now
       { db.1 with
          beatPulse := if db.2 then min 1 (db.1.beatPulse + 0.34) else db.1.beatPulse
          beatDetected := db.2 }) := rfl

theorem update_snd_rms (m : JsMath) (s : AState) (f : Frame) :
    (update m s f).2.rms = (update m s f).1.rms := rfl

theorem update_snd_rmsAverage (m : JsMath) (s : AState) (f : Frame) :
    (update m s f).2.rmsAverage = (update m s f).1.rmsAverage := rfl

theorem update_snd_level (m : JsMath) (s : AState) (f : Frame) :
    (update m s f).2.level = (update m s f).1.level := rfl

theorem update_snd_beatPulse (m : JsMath) (s : AState) (f : Frame) :
    (update m s f).2.beatPulse = (update m s f).1.beatPulse := rfl

theorem update_snd_brightness (m : JsMath) (s : AState) (f : Frame) :
    (update m s f).2.brightness = (update m s f).1.brightness := rfl

theorem update_snd_bpm (m : JsMath) (s : AState) (f : Frame) :
    (update m s f).2.bpm = (update m s f).1.bpm := rfl

theorem update_snd_bandEnergy (m : JsMath) (s : AState) (f : Frame) :
    (update m s f).2.bandEnergy = (update m s f).1.bandEnergy := rfl

end AudioAnalyser

/-! ### The range invariant (claim C1) -/

/-- The assumption on the `Math.pow` interpretation needed for the
range invariant: like the real `Math.pow` with the fixed positive
exponent `bandExponent = 0.7`, it maps [0,1] into [0,1]. -/
def PowBounded (m : JsMath) : Prop :=
  ∀ x : ℚ, 0 ≤ x → x ≤ 1 → 0 ≤ m.pow x bandExponent ∧ m.pow x bandExponent ≤ 1

theorem ratMath_powBounded : PowBounded ratMath := fun _ hx hx' => ⟨hx, hx'⟩

/-- Inductive range invariant on the analyser state. -/
def Inv (s : AState) : Prop :=
  0 ≤ s.level ∧ s.level ≤ 1 ∧
  0 ≤ s.beatPulse ∧ s.beatPulse ≤ 1 ∧
  0 ≤ s.brightness ∧ s.brightness ≤ 1 ∧
  0 ≤ s.bandEnergy.low ∧ s.bandEnergy.low ≤ 1 ∧
  0 ≤ s.bandEnergy.mid ∧ s.bandEnergy.mid ≤ 1 ∧
  0 ≤ s.bandEnergy.high ∧ s.bandEnergy.high ≤ 1 ∧
  (s.bpm = 0 ∨ (50 ≤ s.bpm ∧ s.bpm ≤ 200)) ∧
  (s.bpm = 0 → s.beatIntervals = []) ∧
  s.fluxHistory.length ≤ fluxHistorySize ∧
  s.beatIntervals.length ≤ bpmWindow

theorem initialState_inv : Inv initialState := by
  unfold Inv initialState
  norm_num

namespace AudioAnalyser

theorem updateBands_bounds (m : JsMath) (hpow : PowBounded m) (freqData : List ℚ) :
    (0 ≤ (updateBands m freqData).low ∧ (updateBands m freqData).low ≤ 1) ∧
    (0 ≤ (updateBands m freqData).mid ∧ (updateBands m freqData).mid ≤ 1) ∧
    (0 ≤ (updateBands m freqData).high ∧ (updateBands m freqData).high ≤ 1) := by
  simp only [updateBands]
  refine ⟨hpow _ (lo_le_clamp _ _ _) (clamp_le_hi _ _ _ (by norm_num)),
    hpow _ (lo_le_clamp _ _ _) (clamp_le_hi _ _ _ (by norm_num)),
    hpow _ (lo_le_clamp _ _ _) (clamp_le_hi _ _ _ (by norm_num))⟩

theorem updateBrightness_bounds (band : BandEnergy) :
    0 ≤ updateBrightness band ∧ updateBrightness band ≤ 1 :=
  ⟨lo_le_clamp _ _ _, clamp_le_hi _ _ _ (by norm_num)⟩

theorem midTick_inv (m : JsMath) (hpow : PowBounded m) (s : AState) (f : Frame)
    (h : Inv s) : Inv (midTick m s f).1 := by
  obtain ⟨hl0, hl1, hp0, hp1, hb0, hb1, hlo0, hlo1, hmi0, hmi1, hhi0, hhi1,
    hbpm, hbi, hfh, hbl⟩ := h
  obtain ⟨hblo, hbmi, hbhi⟩ := updateBands_bounds m hpow f.freqData
  have hn := And.intro (lo_le_clamp (m.pow ((m.sqrt ((f.timeData.map (fun x => x * x)).sum /
    (f.timeData.length : ℚ))) * levelScale) levelExponent) 0 1)
    (clamp_le_hi (m.pow ((m.sqrt ((f.timeData.map (fun x => x * x)).sum /
      (f.timeData.length : ℚ))) * levelScale) levelExponent) 0 1 (by norm_num))
  unfold Inv
  simp only [midTick]
  refine ⟨?_, ?_, ?_, ?_, ?_, ?_, hblo.1, hblo.2, hbmi.1, hbmi.2, hbhi.1, hbhi.2,
    hbpm, hbi, ?_, hbl⟩
  · exact (lerp_mem hl0 hl1 hn.1 hn.2 (by norm_num) (by norm_num)).1
  · exact (lerp_mem hl0 hl1 hn.1 hn.2 (by norm_num) (by norm_num)).2
  · exact (lerp_mem hp0 hp1 (lo_le_clamp _ 0 1) (clamp_le_hi _ 0 1 (by norm_num))
      (by norm_num) (by norm_num)).1
  · exact (lerp_mem hp0 hp1 (lo_le_clamp _ 0 1) (clamp_le_hi _ 0 1 (by norm_num))
      (by norm_num) (by norm_num)).2
  · exact (updateBrightness_bounds _).1
  · exact (updateBrightness_bounds _).2
  · exact pushCap_length_le _ _ _ hfh

theorem detectBeat_tempo_inv (s : AState) (n fl : ℚ) (th : Option ℚ) (d now : ℚ)
    (hbpm : s.bpm = 0 ∨ (50 ≤ s.bpm ∧ s.bpm ≤ 200))
    (hbi : s.bpm = 0 → s.beatIntervals = [])
    (hbl : s.beatIntervals.length ≤ bpmWindow) :
    ((detectBeat s n fl th d now).1.bpm = 0 ∨
      (50 ≤ (detectBeat s n fl th d now).1.bpm ∧ (detectBeat s n fl th d now).1.bpm ≤ 200)) ∧
    ((detectBeat s n fl th d now).1.bpm = 0 →
      (detectBeat s n fl th d now).1.beatIntervals = []) ∧
    (detectBeat s n fl th d now).1.beatIntervals.length ≤ bpmWindow := by
  have h50 : (50 : ℚ) ≤ 200 := by norm_num
  by_cases hc : confirmedCond s n fl th d now
  · by_cases hp : s.lastBeatTime > 0 ∧ now - s.lastBeatTime < beatMaxIntervalMs
    · by_cases hz : s.bpm = 0
      · simp only [detectBeat]
        rw [if_pos hc, if_pos hp, if_pos hz]
        exact ⟨Or.inr (jround_mem (lo_le_clamp _ _ _) (clamp_le_hi _ _ _ h50)),
          fun h0 => absurd h0 (jround_pos (lo_le_clamp _ _ _)),
          pushCap_length_le _ _ _ hbl⟩
      · obtain ⟨hb50, hb200⟩ := hbpm.resolve_left hz
        simp only [detectBeat]
        rw [if_pos hc, if_pos hp, if_neg hz]
        refine ⟨Or.inr (jround_mem ?_ ?_), fun h0 => absurd h0 (jround_pos ?_),
          pushCap_length_le _ _ _ hbl⟩
        · exact (lerp_mem hb50 hb200 (lo_le_clamp _ _ _) (clamp_le_hi _ _ _ h50)
            (by norm_num [bpmSmoothing]) (by norm_num [bpmSmoothing])).1
        · exact (lerp_mem hb50 hb200 (lo_le_clamp _ _ _) (clamp_le_hi _ _ _ h50)
            (by norm_num [bpmSmoothing]) (by norm_num [bpmSmoothing])).2
        · exact (lerp_mem hb50 hb200 (lo_le_clamp _ _ _) (clamp_le_hi _ _ _ h50)
            (by norm_num [bpmSmoothing]) (by norm_num [bpmSmoothing])).1
    · simp only [detectBeat]
      rw [if_pos hc, if_neg hp]
      exact ⟨hbpm, hbi, hbl⟩
  · by_cases hr : resetCond s now
    · simp only [detectBeat]
      rw [if_neg hc, if_pos hr]
      exact ⟨Or.inl rfl, fun _ => rfl, by simp⟩
    · simp only [detectBeat]
      rw [if_neg hc, if_neg hr]
      exact ⟨hbpm, hbi, hbl⟩

theorem detectBeat_inv (s : AState) (n fl : ℚ) (th : Option ℚ) (d now : ℚ)
    (h : Inv s) : Inv (detectBeat s n fl th d now).1 := by
  obtain ⟨hl0, hl1, hp0, hp1, hb0, hb1, hlo0, hlo1, hmi0, hmi1, hhi0, hhi1,
    hbpm, hbi, hfh, hbl⟩ := h
  have ht := detectBeat_tempo_inv s n fl th d now hbpm hbi hbl
  unfold Inv
  rw [detectBeat_level, detectBeat_beatPulse, detectBeat_brightness, detectBeat_bandEnergy,
    detectBeat_fluxHistory]
  exact ⟨hl0, hl1, hp0, hp1, hb0, hb1, hlo0, hlo1, hmi0, hmi1, hhi0, hhi1,
    ht.1, ht.2.1, hfh, ht.2.2⟩

theorem update_inv (m : JsMath) (hpow : PowBounded m) (s : AState) (f : Frame)
    (h : Inv s) : Inv (update m s f).1 := by
  have h2 := detectBeat_inv (midTick m s f).1 (midTick m s f).2.normalized
    (midTick m s f).2.flux (midTick m s f).2.threshold (midTick m s f).2.delta f.now
    (midTick_inv m hpow s f h)
  obtain ⟨hl0, hl1, hp0, hp1, hb0, hb1, hlo0, hlo1, hmi0, hmi1, hhi0, hhi1,
    hbpm, hbi, hfh, hbl⟩ := h2
  unfold Inv
  dsimp only [update]
  refine ⟨hl0, hl1, ?_, ?_, hb0, hb1, hlo0, hlo1, hmi0, hmi1, hhi0, hhi1,
    hbpm, hbi, hfh, hbl⟩
  · split
    · rw [jmin_eq]
      exact le_min (by norm_num) (by linarith)
    · exact hp0
  · split
    · rw [jmin_eq]
      exact min_le_left _ _
    · exact hp1

theorem runState_inv (m : JsMath) (hpow : PowBounded m) (fs : List Frame) :
    ∀ s : AState, Inv s → Inv (runState m s fs) := by
  induction fs with
  | nil => intro s h; exact h
  | cons f fs ih => intro s h; exact ih _ (update_inv m hpow s f h)

/-- Bounds claimed of every per-tick snapshot. -/
def snapBounds (o : Snap) : Prop :=
  0 ≤ o.level ∧ o.level ≤ 1 ∧
  0 ≤ o.bandEnergy.low ∧ o.bandEnergy.low ≤ 1 ∧
  0 ≤ o.bandEnergy.mid ∧ o.bandEnergy.mid ≤ 1 ∧
  0 ≤ o.bandEnergy.high ∧ o.bandEnergy.high ≤ 1 ∧
  0 ≤ o.beatPulse ∧ o.beatPulse ≤ 1 ∧
  0 ≤ o.brightness ∧ o.brightness ≤ 1 ∧
  (o.bpm = 0 ∨ (50 ≤ o.bpm ∧ o.bpm ≤ 200))

theorem update_snapBounds (m : JsMath) (hpow : PowBounded m) (s : AState) (f : Frame)
    (h : Inv s) : snapBounds (update m s f).2 := by
  have h1 := update_inv m hpow s f h
  obtain ⟨hl0, hl1, hp0, hp1, hb0, hb1, hlo0, hlo1, hmi0, hmi1, hhi0, hhi1,
    hbpm, hbi, hfh, hbl⟩ := h1
  unfold snapBounds
  rw [update_snd_level, update_snd_beatPulse, update_snd_brightness, update_snd_bpm,
    update_snd_bandEnergy]
  exact ⟨hl0, hl1, hlo0, hlo1, hmi0, hmi1, hhi0, hhi1, hp0, hp1, hb0, hb1, hbpm⟩

theorem runOutputs_snapBounds (m : JsMath) (hpow : PowBounded m) (fs : List Frame) :
    ∀ s : AState, Inv s → ∀ o ∈ runOutputs m s fs, snapBounds o := by
  induction fs with
  | nil => intro s _ o ho; simp [runOutputs] at ho
  | cons f fs ih =>
    intro s h o ho
    simp only [runOutputs, List.mem_cons] at ho
    rcases ho with rfl | ho
    · exact update_snapBounds m hpow s f h
    · exact ih _ (update_inv m hpow s f h) o ho

/-! ### Branch characterisations of `detectBeat` and `update` -/

theorem detectBeat_reset (s : AState) (n fl : ℚ) (th : Option ℚ) (d now : ℚ)
    (hnc : ¬confirmedCond s n fl th d now) (hrc : resetCond s now) :
    detectBeat s n fl th d now =
      ({ s with beatIntervals := [], lastBeatTime := 0, bpm := 0, prevFlux := fl }, false) := by
  simp only [detectBeat]
  rw [if_neg hnc, if_pos hrc]

theorem detectBeat_noop (s : AState) (n fl : ℚ) (th : Option ℚ) (d now : ℚ)
    (hnc : ¬confirmedCond s n fl th d now) (hnr : ¬resetCond s now) :
    detectBeat s n fl th d now = ({ s with prevFlux := fl }, false) := by
  simp only [detectBeat]
  rw [if_neg hnc, if_neg hnr]

theorem detectBeat_confirmed_far (s : AState) (n fl : ℚ) (th : Option ℚ) (d now : ℚ)
    (hc : confirmedCond s n fl th d now)
    (hnp : ¬(s.lastBeatTime > 0 ∧ now - s.lastBeatTime < beatMaxIntervalMs)) :
    detectBeat s n fl th d now =
      ({ s with lastBeatTime := now, prevFlux := fl }, true) := by
  simp only [detectBeat]
  rw [if_pos hc, if_neg hnp]

theorem detectBeat_snd_false (s : AState) (n fl : ℚ) (th : Option ℚ) (d now : ℚ)
    (hnc : ¬confirmedCond s n fl th d now) :
    (detectBeat s n fl th d now).2 = false := by
  rw [← Bool.not_eq_true, detectBeat_snd]
  exact hnc

theorem update_rms_eq (m : JsMath) (s : AState) (f : Frame) :
    (update m s f).1.rms = (midTick m s f).1.rms := by
  have e : (update m s f).1.rms =
      (detectBeat (midTick m s f).1 (midTick m s f).2.normalized (midTick m s f).2.flux
        (midTick m s f).2.threshold (midTick m s f).2.delta f.now).1.rms := rfl
  rw [e, detectBeat_rms]

theorem update_rmsAverage_eq (m : JsMath) (s : AState) (f : Frame) :
    (update m s f).1.rmsAverage = (midTick m s f).1.rmsAverage := by
  have e : (update m s f).1.rmsAverage =
      (detectBeat (midTick m s f).1 (midTick m s f).2.normalized (midTick m s f).2.flux
        (midTick m s f).2.threshold (midTick m s f).2.delta f.now).1.rmsAverage := rfl
  rw [e, detectBeat_rmsAverage]

theorem update_level_eq (m : JsMath) (s : AState) (f : Frame) :
    (update m s f).1.level = (midTick m s f).1.level := by
  have e : (update m s f).1.level =
      (detectBeat (midTick m s f).1 (midTick m s f).2.normalized (midTick m s f).2.flux
        (midTick m s f).2.threshold (midTick m s f).2.delta f.now).1.level := rfl
  rw [e, detectBeat_level]

theorem update_levelAverage_eq (m : JsMath) (s : AState) (f : Frame) :
    (update m s f).1.levelAverage = (midTick m s f).1.levelAverage := by
  have e : (update m s f).1.levelAverage =
      (detectBeat (midTick m s f).1 (midTick m s f).2.normalized (midTick m s f).2.flux
        (midTick m s f).2.threshold (midTick m s f).2.delta f.now).1.levelAverage := rfl
  rw [e, detectBeat_levelAverage]

theorem update_brightness_eq (m : JsMath) (s : AState) (f : Frame) :
    (update m s f).1.brightness = (midTick m s f).1.brightness := by
  have e : (update m s f).1.brightness =
      (detectBeat (midTick m s f).1 (midTick m s f).2.normalized (midTick m s f).2.flux
        (midTick m s f).2.threshold (midTick m s f).2.delta f.now).1.brightness := rfl
  rw [e, detectBeat_brightness]

theorem update_bandEnergy_eq (m : JsMath) (s : AState) (f : Frame) :
    (update m s f).1.bandEnergy = (midTick m s f).1.bandEnergy := by
  have e : (update m s f).1.bandEnergy =
      (detectBeat (midTick m s f).1 (midTick m s f).2.normalized (midTick m s f).2.flux
        (midTick m s f).2.threshold (midTick m s f).2.delta f.now).1.bandEnergy := rfl
  rw [e, detectBeat_bandEnergy]

theorem update_lastAudioActive_eq (m : JsMath) (s : AState) (f : Frame) :
    (update m s f).1.lastAudioActive = (midTick m s f).1.lastAudioActive := by
  have e : (update m s f).1.lastAudioActive =
      (detectBeat (midTick m s f).1 (midTick m s f).2.normalized (midTick m s f).2.flux
        (midTick m s f).2.threshold (midTick m s f).2.delta f.now).1.lastAudioActive := rfl
  rw [e, detectBeat_lastAudioActive]

theorem update_prevSpectrum_eq (m : JsMath) (s : AState) (f : Frame) :
    (update m s f).1.prevSpectrum = (midTick m s f).1.prevSpectrum := by
  have e : (update m s f).1.prevSpectrum =
      (detectBeat (midTick m s f).1 (midTick m s f).2.normalized (midTick m s f).2.flux
        (midTick m s f).2.threshold (midTick m s f).2.delta f.now).1.prevSpectrum := rfl
  rw [e, detectBeat_prevSpectrum]

theorem update_fluxHistory_eq (m : JsMath) (s : AState) (f : Frame) :
    (update m s f).1.fluxHistory = (midTick m s f).1.fluxHistory := by
  have e : (update m s f).1.fluxHistory =
      (detectBeat (midTick m s f).1 (midTick m s f).2.normalized (midTick m s f).2.flux
        (midTick m s f).2.threshold (midTick m s f).2.delta f.now).1.fluxHistory := rfl
  rw [e, detectBeat_fluxHistory]

theorem update_prevFlux_eq (m : JsMath) (s : AState) (f : Frame) :
    (update m s f).1.prevFlux = (midTick m s f).2.flux := by
  have e : (update m s f).1.prevFlux =
      (detectBeat (midTick m s f).1 (midTick m s f).2.normalized (midTick m s f).2.flux
        (midTick m s f).2.threshold (midTick m s f).2.delta f.now).1.prevFlux := rfl
  rw [e, detectBeat_prevFlux]

theorem update_lastBeatTime_eq (m : JsMath) (s : AState) (f : Frame) :
    (update m s f).1.lastBeatTime =
      (detectBeat (midTick m s f).1 (midTick m s f).2.normalized (midTick m s f).2.flux
        (midTick m s f).2.threshold (midTick m s f).2.delta f.now).1.lastBeatTime := rfl

theorem update_beatIntervals_eq (m : JsMath) (s : AState) (f : Frame) :
    (update m s f).1.beatIntervals =
      (detectBeat (midTick m s f).1 (midTick m s f).2.normalized (midTick m s f).2.flux
        (midTick m s f).2.threshold (midTick m s f).2.delta f.now).1.beatIntervals := rfl

theorem update_bpm_eq (m : JsMath) (s : AState) (f : Frame) :
    (update m s f).1.bpm =
      (detectBeat (midTick m s f).1 (midTick m s f).2.normalized (midTick m s f).2.flux
        (midTick m s f).2.threshold (midTick m s f).2.delta f.now).1.bpm := rfl

theorem update_beatPulse_eq (m : JsMath) (s : AState) (f : Frame) :
    (update m s f).1.beatPulse =
      (if (detectBeat (midTick m s f).1 (midTick m s f).2.normalized (midTick m s f).2.flux
            (midTick m s f).2.threshold (midTick m s f).2.delta f.now).2 then
        jmin 1 ((detectBeat (midTick m s f).1 (midTick m s f).2.normalized (midTick m s f).2.flux
            (midTick m s f).2.threshold (midTick m s f).2.delta f.now).1.beatPulse + 0.34)
      else
        (detectBeat (midTick m s f).1 (midTick m s f).2.normalized (midTick m s f).2.flux
            (midTick m s f).2.threshold (midTick m s f).2.delta f.now).1.beatPulse) := rfl

/-! ### Flux history length across runs -/

theorem update_fluxHistory_pushCap (m : JsMath) (s : AState) (f : Frame) :
    (update m s f).1.fluxHistory =
      pushCap s.fluxHistory (calculateFlux m s.prevSpectrum f.freqData).1 fluxHistorySize := by
  rw [update_fluxHistory_eq, midTick_fluxHistory]
  exact rfl

theorem runState_fluxHistory_length (m : JsMath) (fs : List Frame) :
    ∀ s : AState, s.fluxHistory.length ≤ fluxHistorySize →
      (runState m s fs).fluxHistory.length =
        min (s.fluxHistory.length + fs.length) fluxHistorySize := by
  induction fs with
  | nil =>
    intro s h
    simp only [runState, List.length_nil, Nat.add_zero]
    omega
  | cons f fs ih =>
    intro s h
    rw [runState]
    have hs : (update m s f).1.fluxHistory.length =
        min (s.fluxHistory.length + 1) fluxHistorySize := by
      rw [update_fluxHistory_pushCap, pushCap_length_eq _ _ _ h]
    rw [ih _ (by omega), hs, List.length_cons]
    omega

theorem updateFluxHistory_threshold_none (h : List ℚ) (x : ℚ) :
    (updateFluxHistory h x).threshold = none ↔ h.length < fluxMinWindow := by
  simp only [updateFluxHistory]
  split
  · next hcond =>
    simp only [reduceCtorEq, false_iff, not_lt]
    exact le_trans hcond inf_le_left
  · next hcond =>
    constructor
    · intro _
      by_contra hc
      exact hcond (le_inf (not_lt.mp hc) (by norm_num [fluxMinWindow, fluxWindow]))
    · intro _
      rfl

theorem updateFluxHistory_delta_none (h : List ℚ) (x : ℚ)
    (hth : (updateFluxHistory h x).threshold = none) : (updateFluxHistory h x).delta = 0 := by
  simp only [updateFluxHistory] at hth ⊢
  rw [hth]

theorem midTick_delta (m : JsMath) (s : AState) (f : Frame) :
    (midTick m s f).2.delta =
      (updateFluxHistory s.fluxHistory (calculateFlux m s.prevSpectrum f.freqData).1).delta :=
  rfl

/-- On a confirmed beat with an empty interval window, zero `bpm` and a
plausible interval, the new `bpm` is the rounded clamp of
`60000 / max(interval, 1)`. -/
theorem detectBeat_push_bpm (s : AState) (n fl : ℚ) (th : Option ℚ) (d now : ℚ)
    (hc : confirmedCond s n fl th d now)
    (hp : s.lastBeatTime > 0 ∧ now - s.lastBeatTime < beatMaxIntervalMs)
    (hz : s.bpm = 0) (hints : s.beatIntervals = []) :
    (detectBeat s n fl th d now).1.bpm =
      jround (clamp (60000 / jmax (now - s.lastBeatTime) 1) 50 200) := by
  simp only [detectBeat]
  rw [if_pos hc, if_pos hp, hints, if_pos hz]
  norm_num [pushCap, bpmWindow]

end AudioAnalyser

/-! ## The claims -/

open AudioAnalyser

/-- C1: For every tick of `AudioAnalyser.update`, starting from the
initial state and for any sequence of input frames, the returned
`level`, `bandEnergy.{low,mid,high}`, `beatPulse` and `brightness` all
lie in [0,1] and `bpm` is either 0 or lies in [50,200] (`snapBounds`),
and the `fluxHistory` and `beatIntervals` buffers never exceed their
configured capacities of 128 and 12 (eviction drops the list head,
i.e. the oldest entry, as `pushCap` shows).  The `Math.pow`
interpretation is assumed to map [0,1] into [0,1] at the band
exponent, as the real `Math.pow` does. -/
theorem c1_range_invariant (m : JsMath) (hpow : PowBounded m) (fs : List Frame) :
    (∀ o ∈ runOutputs m initialState fs, snapBounds o) ∧
    (runState m initialState fs).fluxHistory.length ≤ fluxHistorySize ∧
    (runState m initialState fs).beatIntervals.length ≤ bpmWindow := by
  refine ⟨runOutputs_snapBounds m hpow fs initialState initialState_inv, ?_, ?_⟩
  · obtain ⟨-, -, -, -, -, -, -, -, -, -, -, -, -, -, hfh, -⟩ :=
      runState_inv m hpow fs initialState initialState_inv
    exact hfh
  · obtain ⟨-, -, -, -, -, -, -, -, -, -, -, -, -, -, -, hbl⟩ :=
      runState_inv m hpow fs initialState initialState_inv
    exact hbl

/-- C1 witness: the range invariant instantiated at the computable
interpretation and a concrete two-frame input. -/
theorem c1_range_invariant_witness :
    (∀ o ∈ runOutputs ratMath initialState [bf 0, qf 100], snapBounds o) ∧
    (runState ratMath initialState [bf 0, qf 100]).fluxHistory.length ≤ fluxHistorySize ∧
    (runState ratMath initialState [bf 0, qf 100]).beatIntervals.length ≤ bpmWindow :=
  c1_range_invariant ratMath ratMath_powBounded [bf 0, qf 100]

/-- Concrete input refuting C2 as stated: twelve quiet warm-up ticks,
a loud onset at t = 3000 ms (confirmed beat), a quiet tick at
t = 3100 ms on which the silence reset fires (`lastAudioActive` is
still 0 because the level never exceeded the activity floor, so
`3100 - 0 > 2600`), and another loud onset at t = 3150 ms which is
confirmed because the reset zeroed `lastBeatTime`. -/
def c2Frames : List Frame := warmup ++ [bf 3000, qf 3100, bf 3150]

/-- C2 counterexample: the run on `c2Frames` confirms beats on the
ticks at t = 3000 and t = 3150, which are only 150 ms < 200 ms apart,
refuting the claim that no two beat-confirming ticks are ever closer
than `beatMinIntervalMs` for any input sequence with increasing tick
times. -/
theorem c2_counterexample :
    (runOutputs ratMath initialState c2Frames).map Snap.beatDetected =
      [false, false, false, false, false, false, false, false, false, false, false, false,
       true, false, true] ∧
    c2Frames.map Frame.now =
      [0, 10, 20, 30, 40, 50, 60, 70, 80, 90, 100, 110, 3000, 3100, 3150] ∧
    (3150 : ℚ) - 3000 < beatMinIntervalMs := by
  decide

/-- C2 amended: a candidate onset is confirmed only if `lastBeatTime`
is 0 — that is, no beat has fired since construction OR since the last
silence reset, which also zeroes `lastBeatTime` — or the elapsed time
since the last confirmed beat exceeds `beatMinIntervalMs` (200 ms).
The 200 ms spacing therefore holds between confirmed beats with no
intervening silence reset, but not across such a reset. -/
theorem c2_refractory (m : JsMath) (s : AState) (f : Frame)
    (h : (update m s f).2.beatDetected = true) :
    s.lastBeatTime = 0 ∨ f.now - s.lastBeatTime > beatMinIntervalMs := by
  rw [update_detect, detectBeat_snd] at h
  have h4 := h.2.2.2
  rw [midTick_lastBeatTime] at h4
  exact h4

/-- C2 witness: the amended refractory condition at the first
confirmed beat of the `c2Frames` run. -/
theorem c2_refractory_witness :
    (runState ratMath initialState warmup).lastBeatTime = 0 ∨
      (bf 3000).now - (runState ratMath initialState warmup).lastBeatTime > beatMinIntervalMs :=
  c2_refractory ratMath (runState ratMath initialState warmup) (bf 3000) (by decide)

/-- C3 counterexample: after 11 ticks the 12th tick observes its 12th
flux sample (counting the current tick's), yet the threshold is still
undefined, because the source computes the threshold from the history
BEFORE pushing the new flux value (app.js 259-285), contradicting the
claim that the new flux value is appended before the threshold is
computed and that the threshold is defined as soon as 12 samples
including the current one have been observed. -/
theorem c3_counterexample :
    (midTick ratMath (runState ratMath initialState (List.replicate 11 (qf 0)))
      (qf 0)).2.threshold = none := by
  decide

/-- C3 amended: the threshold is computed from the flux history as it
stood before the current tick's flux value is appended, so on a tick
following `fs` it is undefined exactly when fewer than
`fluxMinWindow = 12` flux samples were observed on STRICTLY EARLIER
ticks — i.e. it first becomes defined on the 13th tick — and whenever
it is undefined the reported delta is 0.  Since the history length
never decreases, the threshold stays defined from the 13th tick on. -/
theorem c3_threshold_warmup (m : JsMath) (fs : List Frame) (f : Frame) :
    ((midTick m (runState m initialState fs) f).2.threshold = none ↔
      fs.length < fluxMinWindow) ∧
    ((midTick m (runState m initialState fs) f).2.threshold = none →
      (midTick m (runState m initialState fs) f).2.delta = 0) := by
  have hlen : (runState m initialState fs).fluxHistory.length = min fs.length fluxHistorySize := by
    have h0 : (initialState.fluxHistory.length : ℕ) ≤ fluxHistorySize := by
      simp [initialState, fluxHistorySize]
    have := runState_fluxHistory_length m fs initialState h0
    simpa [initialState] using this
  constructor
  · rw [midTick_threshold, updateFluxHistory_threshold_none, hlen]
    have h128 : fluxMinWindow ≤ fluxHistorySize := by norm_num [fluxMinWindow, fluxHistorySize]
    omega
  · intro h
    rw [midTick_delta]
    rw [midTick_threshold] at h
    exact updateFluxHistory_delta_none _ _ h

/-- C3 witness: on the 12th tick the delta is reported as 0 because
the threshold is still undefined. -/
theorem c3_threshold_warmup_witness :
    (midTick ratMath (runState ratMath initialState (List.replicate 11 (qf 0)))
      (qf 0)).2.delta = 0 :=
  (c3_threshold_warmup ratMath (List.replicate 11 (qf 0)) (qf 0)).2 (by decide)

/-- C4: on any tick where no beat is confirmed and either a beat has
fired before (`lastBeatTime > 0`) with more than
`beatSilenceResetMs = 2600` ms elapsed since it, or more than 2600 ms
elapsed since the last audio activity (as updated earlier in the same
tick), the `beatIntervals` window is cleared and `lastBeatTime` and
`bpm` are both set to 0. -/
theorem c4_silence_reset (m : JsMath) (s : AState) (f : Frame)
    (hdet : (update m s f).2.beatDetected = false)
    (hcond : (s.lastBeatTime > 0 ∧ f.now - s.lastBeatTime > beatSilenceResetMs) ∨
      f.now - (midTick m s f).1.lastAudioActive > beatSilenceResetMs) :
    (update m s f).1.beatIntervals = [] ∧ (update m s f).1.lastBeatTime = 0 ∧
      (update m s f).1.bpm = 0 := by
  have hnc : ¬ confirmedCond (midTick m s f).1 (midTick m s f).2.normalized
      (midTick m s f).2.flux (midTick m s f).2.threshold (midTick m s f).2.delta f.now := by
    intro hcf
    rw [update_detect, (detectBeat_snd _ _ _ _ _ _).mpr hcf] at hdet
    exact Bool.noConfusion hdet
  have hrc : resetCond (midTick m s f).1 f.now := by
    unfold resetCond
    rcases hcond with ⟨h1, h2⟩ | h
    · exact Or.inl ⟨by rw [midTick_lastBeatTime]; exact h1,
        by rw [midTick_lastBeatTime]; exact h2⟩
    · exact Or.inr h
  have hdb := detectBeat_reset (midTick m s f).1 (midTick m s f).2.normalized
    (midTick m s f).2.flux (midTick m s f).2.threshold (midTick m s f).2.delta f.now hnc hrc
  refine ⟨?_, ?_, ?_⟩
  · rw [update_beatIntervals_eq, hdb]
  · rw [update_lastBeatTime_eq, hdb]
  · rw [update_bpm_eq, hdb]

/-- C4 witness: a quiet frame at t = 3000 ms fed to the freshly
constructed analyser fires the idle reset (3000 − 0 > 2600 with no
audio activity ever observed). -/
theorem c4_silence_reset_witness :
    (update ratMath initialState (qf 3000)).1.beatIntervals = [] ∧
    (update ratMath initialState (qf 3000)).1.lastBeatTime = 0 ∧
    (update ratMath initialState (qf 3000)).1.bpm = 0 :=
  c4_silence_reset ratMath initialState (qf 3000) (by decide) (by decide)

/-- C5: when the candidate-onset conditions hold, a previous beat
exists, and the interval since it is at least
`beatMaxIntervalMs = 1400` ms, the beat still fires
(`beatDetected = true`) and `lastBeatTime` is reset to the tick time,
but the interval is not pushed into `beatIntervals` and `bpm` is left
unchanged. -/
theorem c5_discontinuity (m : JsMath) (s : AState) (f : Frame)
    (hth : (midTick m s f).2.threshold ≠ none)
    (hd : (midTick m s f).2.delta > fluxDeltaFloor)
    (hrise : (midTick m s f).2.flux > s.prevFlux)
    (hfloor : (midTick m s f).2.normalized > beatLevelFloor ∨
      energyScore (midTick m s f).1.bandEnergy > beatEnergyFloor)
    (_hprev : s.lastBeatTime > 0)
    (hgap : f.now - s.lastBeatTime ≥ beatMaxIntervalMs) :
    (update m s f).2.beatDetected = true ∧
    (update m s f).1.lastBeatTime = f.now ∧
    (update m s f).1.beatIntervals = s.beatIntervals ∧
    (update m s f).1.bpm = s.bpm := by
  have hconf : confirmedCond (midTick m s f).1 (midTick m s f).2.normalized
      (midTick m s f).2.flux (midTick m s f).2.threshold (midTick m s f).2.delta f.now := by
    refine ⟨⟨hth, hd⟩, ?_, hfloor, ?_⟩
    · rw [midTick_prevFlux]; exact hrise
    · right
      rw [midTick_lastBeatTime]
      have : beatMinIntervalMs < beatMaxIntervalMs := by
        norm_num [beatMinIntervalMs, beatMaxIntervalMs]
      linarith
  have hnp : ¬((midTick m s f).1.lastBeatTime > 0 ∧
      f.now - (midTick m s f).1.lastBeatTime < beatMaxIntervalMs) := by
    rw [midTick_lastBeatTime]
    rintro ⟨-, hlt⟩
    linarith
  have hdb := detectBeat_confirmed_far (midTick m s f).1 (midTick m s f).2.normalized
    (midTick m s f).2.flux (midTick m s f).2.threshold (midTick m s f).2.delta f.now hconf hnp
  refine ⟨?_, ?_, ?_, ?_⟩
  · rw [update_detect, hdb]
  · rw [update_lastBeatTime_eq, hdb]
  · rw [update_beatIntervals_eq, hdb]
    exact midTick_beatIntervals m s f
  · rw [update_bpm_eq, hdb]
    exact midTick_bpm m s f

/-- State for the C5 witness: a warmed-up analyser whose last beat was
at t = 1000 ms, with a nonzero tempo estimate. -/
def c5State : AState :=
  { initialState with
      lastBeatTime := 1000
      beatIntervals := [500]
      bpm := 120
      prevSpectrum := some [0]
      fluxHistory := List.replicate 12 0
      lastAudioActive := 900 }

theorem beatPhase_index (s : PaletteState) (i : PaletteInput) (now : ℚ) :
    (PaletteController.beatPhase s i now).index = s.index := by
  unfold PaletteController.beatPhase
  split <;> rfl

theorem beatPhase_lastSwitch (s : PaletteState) (i : PaletteInput) (now : ℚ) :
    (PaletteController.beatPhase s i now).lastSwitch = s.lastSwitch := by
  unfold PaletteController.beatPhase
  split <;> rfl

/-- C6: the PaletteScheduler never advances before its hold time
— `max(paletteMinHoldMs, beatDuration × paletteBeatsPerCycle)` since
the last switch — is satisfied, regardless of how many beats occur
(conjuncts 1 and 2); it moves to the next theme (wrapping modulo the
theme list) only when the hold is satisfied, the strong-pulse
condition holds, and at least `paletteBeatsPerCycle` beats have been
counted since the last switch (conjunct 3: any index change that is
not the quiet reset to theme 0 is such an advance), after which the
beat counter resets to 0 (conjuncts 3 and 4; the same tick's quiet
reset may additionally send the index to 0, which also zeroes the
counter). -/
theorem c6_palette_advance (s : PaletteState) (i : PaletteInput) (now : ℚ) :
    (¬ PaletteController.holdSatisfied s i now →
        (PaletteController.update s i now).index = s.index ∧
        (PaletteController.update s i now).lastSwitch = s.lastSwitch) ∧
    ((PaletteController.update s i now).index ≠ s.index →
        PaletteController.holdSatisfied s i now) ∧
    ((PaletteController.update s i now).index ≠ s.index →
        (PaletteController.update s i now).index ≠ 0 →
        PaletteController.strongPulse i ∧
        paletteBeatsPerCycle ≤ (PaletteController.beatPhase s i now).beatCount ∧
        (PaletteController.update s i now).index = (s.index + 1) % themeCount ∧
        (PaletteController.update s i now).beatCount = 0) ∧
    (PaletteController.holdSatisfied s i now → PaletteController.strongPulse i →
        paletteBeatsPerCycle ≤ (PaletteController.beatPhase s i now).beatCount →
        (PaletteController.update s i now).beatCount = 0 ∧
        (PaletteController.update s i now).lastSwitch = now ∧
        ((PaletteController.update s i now).index = (s.index + 1) % themeCount ∨
          (PaletteController.update s i now).index = 0)) := by
  by_cases hA : PaletteController.holdSatisfied s i now ∧ PaletteController.strongPulse i ∧
      (PaletteController.beatPhase s i now).beatCount ≥ paletteBeatsPerCycle
  · by_cases hQ : i.audioIntensity < paletteQuietIntensity ∧
        PaletteController.holdSatisfied s i now ∧
        now - (PaletteController.beatPhase s i now).lastBeatAt > paletteQuietResetMs
    · have hI : (PaletteController.update s i now).index = 0 := by
        simp only [PaletteController.update]
        rw [if_pos hA, if_pos hQ]
      have hC : (PaletteController.update s i now).beatCount = 0 := by
        simp only [PaletteController.update]
        rw [if_pos hA, if_pos hQ]
      have hS : (PaletteController.update s i now).lastSwitch = now := by
        simp only [PaletteController.update]
        rw [if_pos hA, if_pos hQ]
      exact ⟨fun hh => absurd hA.1 hh, fun _ => hA.1, fun _ h0 => absurd hI h0,
        fun _ _ _ => ⟨hC, hS, Or.inr hI⟩⟩
    · have hI : (PaletteController.update s i now).index =
          (s.index + 1) % themeCount := by
        simp only [PaletteController.update]
        rw [if_pos hA, if_neg hQ, beatPhase_index]
      have hC : (PaletteController.update s i now).beatCount = 0 := by
        simp only [PaletteController.update]
        rw [if_pos hA, if_neg hQ]
      have hS : (PaletteController.update s i now).lastSwitch = now := by
        simp only [PaletteController.update]
        rw [if_pos hA, if_neg hQ]
      exact ⟨fun hh => absurd hA.1 hh, fun _ => hA.1,
        fun _ _ => ⟨hA.2.1, hA.2.2, hI, hC⟩,
        fun _ _ _ => ⟨hC, hS, Or.inl hI⟩⟩
  · by_cases hQ : i.audioIntensity < paletteQuietIntensity ∧
        PaletteController.holdSatisfied s i now ∧
        now - (PaletteController.beatPhase s i now).lastBeatAt > paletteQuietResetMs
    · have hI : (PaletteController.update s i now).index = 0 := by
        simp only [PaletteController.update]
        rw [if_neg hA, if_pos hQ]
      have hC : (PaletteController.update s i now).beatCount = 0 := by
        simp only [PaletteController.update]
        rw [if_neg hA, if_pos hQ]
      have hS : (PaletteController.update s i now).lastSwitch = now := by
        simp only [PaletteController.update]
        rw [if_neg hA, if_pos hQ]
      exact ⟨fun hh => absurd hQ.2.1 hh, fun _ => hQ.2.1, fun _ h0 => absurd hI h0,
        fun h1 h2 h3 => absurd ⟨h1, h2, h3⟩ hA⟩
    · have hI : (PaletteController.update s i now).index = s.index := by
        simp only [PaletteController.update]
        rw [if_neg hA, if_neg hQ, beatPhase_index]
      have hS : (PaletteController.update s i now).lastSwitch = s.lastSwitch := by
        simp only [PaletteController.update]
        rw [if_neg hA, if_neg hQ, beatPhase_lastSwitch]
      exact ⟨fun _ => ⟨hI, hS⟩, fun hne => absurd hI hne, fun hne _ => absurd hI hne,
        fun h1 h2 h3 => absurd ⟨h1, h2, h3⟩ hA⟩

/-- C6 witness: with 8 beats counted, a strong pulse, no tempo
estimate and 3000 ms ≥ the 2000 ms minimum hold elapsed, the scheduler
advances from theme 0 to theme 1 and resets its counter. -/
theorem c6_palette_advance_witness :
    (PaletteController.update ⟨0, 0, 8, 0⟩ ⟨1, 1, false, 0⟩ 3000).beatCount = 0 ∧
    (PaletteController.update ⟨0, 0, 8, 0⟩ ⟨1, 1, false, 0⟩ 3000).lastSwitch = 3000 ∧
    ((PaletteController.update ⟨0, 0, 8, 0⟩ ⟨1, 1, false, 0⟩ 3000).index =
        (PaletteState.index ⟨0, 0, 8, 0⟩ + 1) % themeCount ∨
      (PaletteController.update ⟨0, 0, 8, 0⟩ ⟨1, 1, false, 0⟩ 3000).index = 0) :=
  (c6_palette_advance ⟨0, 0, 8, 0⟩ ⟨1, 1, false, 0⟩ 3000).2.2.2
    (by decide) (by decide) (by decide)

/-- Two-run execution relation: `Steps m s fs os t` holds when feeding
the frame sequence `fs` tick by tick through `AudioAnalyser.update`
from state `s` can produce the snapshot sequence `os` and final state
`t`. -/
inductive Steps (m : JsMath) : AState → List Frame → List Snap → AState → Prop
  | nil (s : AState) : Steps m s [] [] s
  | cons {s s' s'' : AState} {f : Frame} {fs : List Frame} {o : Snap} {os : List Snap} :
      update m s f = (s', o) → Steps m s' fs os s'' → Steps m s (f :: fs) (o :: os) s''

theorem steps_deterministic {m : JsMath} {s : AState} {fs : List Frame}
    {os₁ os₂ : List Snap} {t₁ t₂ : AState} (h1 : Steps m s fs os₁ t₁)
    (h2 : Steps m s fs os₂ t₂) : os₁ = os₂ ∧ t₁ = t₂ := by
  induction h1 generalizing os₂ t₂ with
  | nil => cases h2; exact ⟨rfl, rfl⟩
  | cons hu _ ih =>
    cases h2 with
    | cons hu2 hs2 =>
      rw [hu] at hu2
      injection hu2 with hA hB
      subst hA
      subst hB
      obtain ⟨hos, hT⟩ := ih hs2
      exact ⟨by rw [hos], hT⟩

/-- C8: two-run determinism — with the clock modelled as the per-frame
`now` input, feeding the same frame sequence twice from the freshly
constructed analyser state produces identical snapshot sequences and
final states: the per-tick output is a pure function of the input
frame sequence and the initial state. -/
theorem c8_determinism (m : JsMath) (fs : List Frame) (os₁ os₂ : List Snap)
    (t₁ t₂ : AState) (h1 : Steps m initialState fs os₁ t₁)
    (h2 : Steps m initialState fs os₂ t₂) : os₁ = os₂ ∧ t₁ = t₂ :=
  steps_deterministic h1 h2

/-- C8 witness: two single-tick runs on the same concrete frame agree. -/
theorem c8_determinism_witness :
    [(update ratMath initialState (qf 0)).2] = [(update ratMath initialState (qf 0)).2] ∧
    (update ratMath initialState (qf 0)).1 = (update ratMath initialState (qf 0)).1 :=
  c8_determinism ratMath [qf 0] _ _ _ _
    (Steps.cons rfl (Steps.nil _)) (Steps.cons rfl (Steps.nil _))

/-- C9: on a tick whose silence/idle reset fires, the only
analysis-state fields the reset touches are `beatIntervals`,
`lastBeatTime` and `bpm`; `fluxHistory`, `prevSpectrum`, `beatPulse`,
`level`, `levelAverage`, `rms`, `rmsAverage` and `bandEnergy` keep the
values computed earlier in the tick (the mid-tick state `sm`), and
`prevFlux` becomes the tick's flux, so the adaptive threshold history
and the pulse envelope carry over across a silence reset. -/
theorem c9_reset_frame_effect (m : JsMath) (s : AState) (f : Frame) (sm : AState)
    (v : TickVals) (hmid : midTick m s f = (sm, v))
    (hdet : (update m s f).2.beatDetected = false)
    (hreset : (sm.lastBeatTime > 0 ∧ f.now - sm.lastBeatTime > beatSilenceResetMs) ∨
      f.now - sm.lastAudioActive > beatSilenceResetMs) :
    (update m s f).1.fluxHistory = sm.fluxHistory ∧
    (update m s f).1.prevSpectrum = sm.prevSpectrum ∧
    (update m s f).1.beatPulse = sm.beatPulse ∧
    (update m s f).1.level = sm.level ∧
    (update m s f).1.levelAverage = sm.levelAverage ∧
    (update m s f).1.rms = sm.rms ∧
    (update m s f).1.rmsAverage = sm.rmsAverage ∧
    (update m s f).1.bandEnergy = sm.bandEnergy ∧
    (update m s f).1.prevFlux = v.flux ∧
    (update m s f).1.beatIntervals = [] ∧
    (update m s f).1.lastBeatTime = 0 ∧
    (update m s f).1.bpm = 0 := by
  have h1 : sm = (midTick m s f).1 := by rw [hmid]
  have h2 : v = (midTick m s f).2 := by rw [hmid]
  subst h1
  subst h2
  have hnc : ¬ confirmedCond (midTick m s f).1 (midTick m s f).2.normalized
      (midTick m s f).2.flux (midTick m s f).2.threshold (midTick m s f).2.delta f.now := by
    intro hcf
    rw [update_detect, (detectBeat_snd _ _ _ _ _ _).mpr hcf] at hdet
    exact Bool.noConfusion hdet
  have hrc : resetCond (midTick m s f).1 f.now := hreset
  have hdb := detectBeat_reset (midTick m s f).1 (midTick m s f).2.normalized
    (midTick m s f).2.flux (midTick m s f).2.threshold (midTick m s f).2.delta f.now hnc hrc
  have hfalse : (detectBeat (midTick m s f).1 (midTick m s f).2.normalized
      (midTick m s f).2.flux (midTick m s f).2.threshold (midTick m s f).2.delta f.now).2 =
        false := by
    rw [hdb]
  refine ⟨update_fluxHistory_eq m s f, update_prevSpectrum_eq m s f, ?_,
    update_level_eq m s f, update_levelAverage_eq m s f, update_rms_eq m s f,
    update_rmsAverage_eq m s f, update_bandEnergy_eq m s f, update_prevFlux_eq m s f,
    ?_, ?_, ?_⟩
  · rw [update_beatPulse_eq, hfalse]
    simp only [Bool.false_eq_true, if_false]
    exact detectBeat_beatPulse _ _ _ _ _ _
  · rw [update_beatIntervals_eq, hdb]
  · rw [update_lastBeatTime_eq, hdb]
  · rw [update_bpm_eq, hdb]

/-- C9 witness: the idle reset on a quiet frame at t = 3000 ms fed to
the fresh analyser keeps every mid-tick field and zeroes only the
tempo state. -/
theorem c9_reset_frame_effect_witness :
    (update ratMath initialState (qf 3000)).1.fluxHistory =
      (midTick ratMath initialState (qf 3000)).1.fluxHistory ∧
    (update ratMath initialState (qf 3000)).1.prevSpectrum =
      (midTick ratMath initialState (qf 3000)).1.prevSpectrum ∧
    (update ratMath initialState (qf 3000)).1.beatPulse =
      (midTick ratMath initialState (qf 3000)).1.beatPulse ∧
    (update ratMath initialState (qf 3000)).1.level =
      (midTick ratMath initialState (qf 3000)).1.level ∧
    (update ratMath initialState (qf 3000)).1.levelAverage =
      (midTick ratMath initialState (qf 3000)).1.levelAverage ∧
    (update ratMath initialState (qf 3000)).1.rms =
      (midTick ratMath initialState (qf 3000)).1.rms ∧
    (update ratMath initialState (qf 3000)).1.rmsAverage =
      (midTick ratMath initialState (qf 3000)).1.rmsAverage ∧
    (update ratMath initialState (qf 3000)).1.bandEnergy =
      (midTick ratMath initialState (qf 3000)).1.bandEnergy ∧
    (update ratMath initialState (qf 3000)).1.prevFlux =
      (midTick ratMath initialState (qf 3000)).2.flux ∧
    (update ratMath initialState (qf 3000)).1.beatIntervals = [] ∧
    (update ratMath initialState (qf 3000)).1.lastBeatTime = 0 ∧
    (update ratMath initialState (qf 3000)).1.bpm = 0 :=
  c9_reset_frame_effect ratMath initialState (qf 3000)
    (midTick ratMath initialState (qf 3000)).1 (midTick ratMath initialState (qf 3000)).2
    rfl (by decide) (by decide)

theorem getD_replicate_zero (k i : ℕ) : (List.replicate k (0 : ℚ)).getD i 0 = 0 := by
  induction k generalizing i with
  | zero => rfl
  | succ k ih =>
    cases i with
    | zero => rfl
    | succ j => simp only [List.replicate, List.getD_cons_succ]; exact ih j

theorem computeFrequencies_zero (m : JsMath) (hpow0 : ∀ e : ℚ, m.pow 0 e = 0) (k : ℕ) :
    computeFrequencies m (List.replicate k 0) = List.replicate barCount 0 := by
  unfold computeFrequencies
  rw [List.eq_replicate_iff]
  refine ⟨by simp, ?_⟩
  intro b hb
  simp only [List.mem_map, List.mem_range] at hb
  obtain ⟨j, -, rfl⟩ := hb
  rw [getD_replicate_zero, zero_div, hpow0]

theorem update_snd_frequencies (m : JsMath) (s : AState) (f : Frame) :
    (update m s f).2.frequencies = computeFrequencies m f.freqData := rfl

/-- C7 counterexample: a zero-filled frame fed to the freshly
constructed analyser does NOT return the defined zeroed snapshot: the
`rmsAverage` output is 0.00095 = 19/20000 (the 0.001 initialisation
decayed by one EMA step), not 0, so the claim that degenerate frames
produce the zeroed feature snapshot fails. -/
theorem c7_counterexample :
    (update ratMath initialState (qf 0)).2 ≠ emptyState ∧
    (update ratMath initialState (qf 0)).2.rmsAverage = 19 / 20000 := by
  decide

/-- C7 amended: with no capture active the pipeline returns exactly
the defined empty snapshot without touching the state; on a zero-filled
frame (any sizes, nonempty time window) fed to the freshly constructed
analyser every output is 0 — `rms`, `level`, `beatPulse`,
`brightness`, `bpm`, `beatDetected` false, zero band energies, a
zero-filled frequency array — EXCEPT `rmsAverage`, which equals
19/20000 (its 0.001 initialisation decayed by one EMA step); nothing
faults, every output being a well-defined rational (divisions are
guarded by the `max(count,1)` floors and the 1e-6 epsilon).  The
`Math.sqrt`/`Math.pow` interpretation is assumed to send 0 to 0, as
the real functions do for the positive exponents used. -/
theorem c7_degenerate (m : JsMath) (hsqrt : m.sqrt 0 = 0)
    (hpow0 : ∀ e : ℚ, m.pow 0 e = 0) (n k : ℕ) (_hn : 0 < n) (now : ℚ) :
    updateOpt m initialState none = (initialState, emptyState) ∧
    (update m initialState ⟨List.replicate n 0, List.replicate k 0, now⟩).2.rms = 0 ∧
    (update m initialState ⟨List.replicate n 0, List.replicate k 0, now⟩).2.rmsAverage =
      19 / 20000 ∧
    (update m initialState ⟨List.replicate n 0, List.replicate k 0, now⟩).2.level = 0 ∧
    (update m initialState ⟨List.replicate n 0, List.replicate k 0, now⟩).2.beatPulse = 0 ∧
    (update m initialState ⟨List.replicate n 0, List.replicate k 0, now⟩).2.brightness = 0 ∧
    (update m initialState ⟨List.replicate n 0, List.replicate k 0, now⟩).2.bpm = 0 ∧
    (update m initialState ⟨List.replicate n 0, List.replicate k 0, now⟩).2.beatDetected =
      false ∧
    (update m initialState ⟨List.replicate n 0, List.replicate k 0, now⟩).2.bandEnergy =
      ⟨0, 0, 0⟩ ∧
    (update m initialState ⟨List.replicate n 0, List.replicate k 0, now⟩).2.frequencies =
      List.replicate barCount 0 := by
  have hmid : midTick m initialState ⟨List.replicate n 0, List.replicate k 0, now⟩ =
      ({ initialState with
           rms := 0, rmsAverage := 19/20000, bandEnergy := ⟨0, 0, 0⟩, brightness := 0,
           levelAverage := 0, level := 0, lastAudioActive := 0,
           prevSpectrum := some (List.replicate k 0), fluxHistory := [0], beatPulse := 0 },
       { normalized := 0, flux := 0, threshold := none, delta := 0 }) := by
    have hz : ((List.replicate n (0 : ℚ)).map (fun x => x * x)).sum = 0 := by simp
    have hnr : m.sqrt (((List.replicate n (0 : ℚ)).map (fun x => x * x)).sum /
        ((List.replicate n (0 : ℚ)).length : ℚ)) = 0 := by
      rw [hz, zero_div, hsqrt]
    simp only [midTick, initialState, updateBands, updateBrightness, calculateFlux,
      updateFluxHistory, pushCap, lerp, clamp, jmax, jmin, hnr, hsqrt, hpow0,
      List.take_replicate, List.drop_replicate, List.map_replicate, List.sum_replicate,
      List.length_replicate, zero_div, zero_mul, mul_zero, smul_zero]
    norm_num [fluxMinWindow, fluxWindow, fluxHistorySize, hpow0, hsqrt]
  have hnc : ¬ confirmedCond
      (midTick m initialState ⟨List.replicate n 0, List.replicate k 0, now⟩).1
      (midTick m initialState ⟨List.replicate n 0, List.replicate k 0, now⟩).2.normalized
      (midTick m initialState ⟨List.replicate n 0, List.replicate k 0, now⟩).2.flux
      (midTick m initialState ⟨List.replicate n 0, List.replicate k 0, now⟩).2.threshold
      (midTick m initialState ⟨List.replicate n 0, List.replicate k 0, now⟩).2.delta now := by
    intro hcf
    have hth := hcf.1.1
    rw [hmid] at hth
    exact hth rfl
  have hf : (detectBeat
      (midTick m initialState ⟨List.replicate n 0, List.replicate k 0, now⟩).1
      (midTick m initialState ⟨List.replicate n 0, List.replicate k 0, now⟩).2.normalized
      (midTick m initialState ⟨List.replicate n 0, List.replicate k 0, now⟩).2.flux
      (midTick m initialState ⟨List.replicate n 0, List.replicate k 0, now⟩).2.threshold
      (midTick m initialState ⟨List.replicate n 0, List.replicate k 0, now⟩).2.delta
      now).2 = false :=
    detectBeat_snd_false _ _ _ _ _ _ hnc
  refine ⟨rfl, ?_, ?_, ?_, ?_, ?_, ?_, ?_, ?_, ?_⟩
  · rw [update_snd_rms, update_rms_eq, hmid]
  · rw [update_snd_rmsAverage, update_rmsAverage_eq, hmid]
  · rw [update_snd_level, update_level_eq, hmid]
  · rw [update_snd_beatPulse, update_beatPulse_eq, hf]
    simp only [Bool.false_eq_true, if_false]
    rw [detectBeat_beatPulse, hmid]
  · rw [update_snd_brightness, update_brightness_eq, hmid]
  · rw [update_snd_bpm, update_bpm_eq]
    by_cases hr : resetCond
        (midTick m initialState ⟨List.replicate n 0, List.replicate k 0, now⟩).1 now
    · rw [detectBeat_reset _ _ _ _ _ _ hnc hr]
    · rw [detectBeat_noop _ _ _ _ _ _ hnc hr]
      exact (midTick_bpm m initialState _).trans rfl
  · rw [update_detect]
    exact hf
  · rw [update_snd_bandEnergy, update_bandEnergy_eq, hmid]
  · rw [update_snd_frequencies]
    exact computeFrequencies_zero m hpow0 k

/-- C5 witness: a loud onset at t = 3000 ms (interval 2000 ms ≥ 1400)
fires the beat, resets `lastBeatTime`, and leaves `beatIntervals` and
`bpm` untouched. -/
theorem c5_discontinuity_witness :
    (update ratMath c5State (bf 3000)).2.beatDetected = true ∧
    (update ratMath c5State (bf 3000)).1.lastBeatTime = (bf 3000).now ∧
    (update ratMath c5State (bf 3000)).1.beatIntervals = c5State.beatIntervals ∧
    (update ratMath c5State (bf 3000)).1.bpm = c5State.bpm :=
  c5_discontinuity ratMath c5State (bf 3000) (by decide) (by decide) (by decide)
    (by decide) (by decide) (by decide)

/-- C7 witness: the amended degenerate-input behaviour at the
computable interpretation on a one-sample zero frame. -/
theorem c7_degenerate_witness :
    updateOpt ratMath initialState none = (initialState, emptyState) ∧
    (update ratMath initialState ⟨List.replicate 1 0, List.replicate 1 0, 0⟩).2.rms = 0 ∧
    (update ratMath initialState ⟨List.replicate 1 0, List.replicate 1 0, 0⟩).2.rmsAverage =
      19 / 20000 ∧
    (update ratMath initialState ⟨List.replicate 1 0, List.replicate 1 0, 0⟩).2.level = 0 ∧
    (update ratMath initialState ⟨List.replicate 1 0, List.replicate 1 0, 0⟩).2.beatPulse =
      0 ∧
    (update ratMath initialState ⟨List.replicate 1 0, List.replicate 1 0, 0⟩).2.brightness =
      0 ∧
    (update ratMath initialState ⟨List.replicate 1 0, List.replicate 1 0, 0⟩).2.bpm = 0 ∧
    (update ratMath initialState ⟨List.replicate 1 0, List.replicate 1 0, 0⟩).2.beatDetected =
      false ∧
    (update ratMath initialState ⟨List.replicate 1 0, List.replicate 1 0, 0⟩).2.bandEnergy =
      ⟨0, 0, 0⟩ ∧
    (update ratMath initialState ⟨List.replicate 1 0, List.replicate 1 0, 0⟩).2.frequencies =
      List.replicate barCount 0 :=
  c7_degenerate ratMath rfl (fun _ => rfl) 1 1 (by decide) 0

/-- C10: over any run from the initial state, (i) a confirmed beat
that occurs while `lastBeatTime` is 0 (the first beat ever, or the
first after a silence reset) never modifies `beatIntervals` or `bpm`;
(ii) `bpm` can turn from 0 to nonzero only on a tick that confirms a
beat whose interval from the previous confirmed beat is strictly
between `beatMinIntervalMs` (200 ms) and `beatMaxIntervalMs`
(1400 ms), and that first estimate is assigned directly as the rounded
clamp of `60000/interval` to [50, 200]. -/
theorem c10_bpm_genesis (m : JsMath) (hpow : PowBounded m) (fs : List Frame) (f : Frame) :
    ((update m (runState m initialState fs) f).2.beatDetected = true →
      (runState m initialState fs).lastBeatTime = 0 →
      (update m (runState m initialState fs) f).1.beatIntervals =
        (runState m initialState fs).beatIntervals ∧
      (update m (runState m initialState fs) f).1.bpm =
        (runState m initialState fs).bpm) ∧
    ((runState m initialState fs).bpm = 0 →
      (update m (runState m initialState fs) f).1.bpm ≠ 0 →
      (update m (runState m initialState fs) f).2.beatDetected = true ∧
      (runState m initialState fs).lastBeatTime > 0 ∧
      beatMinIntervalMs < f.now - (runState m initialState fs).lastBeatTime ∧
      f.now - (runState m initialState fs).lastBeatTime < beatMaxIntervalMs ∧
      (update m (runState m initialState fs) f).1.bpm =
        jround (clamp (60000 / (f.now - (runState m initialState fs).lastBeatTime))
          50 200)) := by
  constructor
  · intro hdet hz
    rw [update_detect] at hdet
    have hc := (detectBeat_snd _ _ _ _ _ _).mp hdet
    have hnp : ¬((midTick m (runState m initialState fs) f).1.lastBeatTime > 0 ∧
        f.now - (midTick m (runState m initialState fs) f).1.lastBeatTime <
          beatMaxIntervalMs) := by
      rw [midTick_lastBeatTime, hz]
      rintro ⟨h0, -⟩
      exact lt_irrefl _ h0
    have hdb := detectBeat_confirmed_far _ _ _ _ _ _ hc hnp
    constructor
    · rw [update_beatIntervals_eq, hdb]
      exact midTick_beatIntervals m _ f
    · rw [update_bpm_eq, hdb]
      exact midTick_bpm m _ f
  · intro h0 hnz
    by_cases hcf : confirmedCond (midTick m (runState m initialState fs) f).1
        (midTick m (runState m initialState fs) f).2.normalized
        (midTick m (runState m initialState fs) f).2.flux
        (midTick m (runState m initialState fs) f).2.threshold
        (midTick m (runState m initialState fs) f).2.delta f.now
    · by_cases hp : (midTick m (runState m initialState fs) f).1.lastBeatTime > 0 ∧
          f.now - (midTick m (runState m initialState fs) f).1.lastBeatTime <
            beatMaxIntervalMs
      · have hdet : (update m (runState m initialState fs) f).2.beatDetected = true := by
          rw [update_detect]
          exact (detectBeat_snd _ _ _ _ _ _).mpr hcf
        have hlbt : (runState m initialState fs).lastBeatTime > 0 := by
          have := hp.1
          rwa [midTick_lastBeatTime] at this
        have hlt : f.now - (runState m initialState fs).lastBeatTime <
            beatMaxIntervalMs := by
          have := hp.2
          rwa [midTick_lastBeatTime] at this
        have hgt : beatMinIntervalMs < f.now - (runState m initialState fs).lastBeatTime := by
          rcases hcf.2.2.2 with hz | hgt
          · rw [midTick_lastBeatTime] at hz
            exact absurd hz (ne_of_gt hlbt)
          · rwa [midTick_lastBeatTime] at hgt
        have hints : (midTick m (runState m initialState fs) f).1.beatIntervals = [] := by
          rw [midTick_beatIntervals]
          obtain ⟨-, -, -, -, -, -, -, -, -, -, -, -, -, hbi, -, -⟩ :=
            runState_inv m hpow fs initialState initialState_inv
          exact hbi h0
        have hbz : (midTick m (runState m initialState fs) f).1.bpm = 0 := by
          rw [midTick_bpm]
          exact h0
        have hval := detectBeat_push_bpm _ _ _ _ _ _ hcf hp hbz hints
        refine ⟨hdet, hlbt, hgt, hlt, ?_⟩
        rw [update_bpm_eq, hval, midTick_lastBeatTime]
        have h200 : (200 : ℚ) < f.now - (runState m initialState fs).lastBeatTime := hgt
        rw [jmax_eq, max_eq_left (by linarith : (1 : ℚ) ≤
          f.now - (runState m initialState fs).lastBeatTime)]
      · exfalso
        apply hnz
        rw [update_bpm_eq, detectBeat_confirmed_far _ _ _ _ _ _ hcf hp]
        exact (midTick_bpm m _ f).trans h0
    · by_cases hr : resetCond (midTick m (runState m initialState fs) f).1 f.now
      · exfalso
        apply hnz
        rw [update_bpm_eq, detectBeat_reset _ _ _ _ _ _ hcf hr]
      · exfalso
        apply hnz
        rw [update_bpm_eq, detectBeat_noop _ _ _ _ _ _ hcf hr]
        exact (midTick_bpm m _ f).trans h0

/-- Frames for the C10 witness: twelve quiet warm-up ticks, a first
confirmed beat at t = 1000 ms, and a quiet tick at t = 1100 ms (no
reset fires — every time is below the 2600 ms silence threshold). -/
def c10Frames : List Frame := warmup ++ [bf 1000, qf 1100]

/-- C10 witness: the beat at t = 1300 ms (interval 300 ms from the
beat at t = 1000 ms) is the run's first tempo estimate:
`bpm = round(clamp(60000/300)) = 200`. -/
theorem c10_bpm_genesis_witness :
    (update ratMath (runState ratMath initialState c10Frames) (bf 1300)).2.beatDetected =
      true ∧
    (runState ratMath initialState c10Frames).lastBeatTime > 0 ∧
    beatMinIntervalMs <
      (bf 1300).now - (runState ratMath initialState c10Frames).lastBeatTime ∧
    (bf 1300).now - (runState ratMath initialState c10Frames).lastBeatTime <
      beatMaxIntervalMs ∧
    (update ratMath (runState ratMath initialState c10Frames) (bf 1300)).1.bpm =
      jround (clamp
        (60000 / ((bf 1300).now - (runState ratMath initialState c10Frames).lastBeatTime))
        50 200) :=
  (c10_bpm_genesis ratMath ratMath_powBounded c10Frames (bf 1300)).2 (by decide) (by decide)

end WebVJ
